import Mathlib

/-!
Shallow embedding of the moqayada virtual-land marketplace program
(src/programs/moqayada/src/lib.rs) and verification of its specification.

Machine integers are modelled as `Nat` with explicit bounds: `u64` values
live below `2 ^ 64`, `u32` values below `2 ^ 32`, and every `checked_*`
operation of the Rust source becomes an `Option Nat` returning `none`
exactly when the Rust operation reports overflow.  Timestamps (`i64`) are
modelled as `Int`.  Public keys are abstract identities modelled as `Nat`.
Fallible instruction handlers become functions into `Except ErrorCode`.
-/

namespace Moqayada

/-- Identities (Solana `Pubkey`) modelled abstractly. -/
abbrev Pubkey := Nat

/-- Largest value of a Rust `u64`. -/
def u64Max : Nat := 2 ^ 64 - 1

/-- Largest value of a Rust `u32`. -/
def u32Max : Nat := 2 ^ 32 - 1

/-- Rust `u64::checked_add`: `none` when the sum exceeds `u64::MAX`. -/
def checkedAdd64 (a b : Nat) : Option Nat :=
  if a + b ≤ u64Max then some (a + b) else none

/-- Rust `u32::checked_add`: `none` when the sum exceeds `u32::MAX`. -/
def checkedAdd32 (a b : Nat) : Option Nat :=
  if a + b ≤ u32Max then some (a + b) else none

/-- Rust `u64::checked_mul`: `none` when the product exceeds `u64::MAX`. -/
def checkedMul64 (a b : Nat) : Option Nat :=
  if a * b ≤ u64Max then some (a * b) else none

/-- Rust unsigned `checked_sub`: `none` when the subtrahend exceeds the minuend. -/
def checkedSub (a b : Nat) : Option Nat :=
  if b ≤ a then some (a - b) else none

/-- Rust unsigned `checked_div`: `none` exactly on division by zero. -/
def checkedDiv (a b : Nat) : Option Nat :=
  if b = 0 then none else some (a / b)

/-- Program constant `MAX_COORDINATE` (lib.rs line 11). -/
def MAX_COORDINATE : Int := 10000

/-- Program constant `MIN_COORDINATE` (lib.rs line 12). -/
def MIN_COORDINATE : Int := -10000

/-- Program constant `MAX_URI_LENGTH` (lib.rs line 13). -/
def MAX_URI_LENGTH : Nat := 200

/-- Program constant `MAX_NAME_LENGTH` (lib.rs line 14). -/
def MAX_NAME_LENGTH : Nat := 32

/-- Program constant `MIN_PRICE` (lib.rs line 16). -/
def MIN_PRICE : Nat := 1000000

/-- Program constant `LISTING_DURATION_SECONDS` (lib.rs line 17): 30 days. -/
def LISTING_DURATION_SECONDS : Int := 30 * 24 * 60 * 60

/-- The `Coordinates` struct (lib.rs lines 362-365). -/
structure Coordinates where
  x : Int
  y : Int
deriving DecidableEq, Repr

/-- The `ParcelSize` enum (lib.rs lines 368-373). -/
inductive ParcelSize where
  | Small
  | Medium
  | Large
  | XLarge
deriving DecidableEq, Repr

/-- The `Rarity` enum (lib.rs lines 376-382). -/
inductive Rarity where
  | Common
  | Uncommon
  | Rare
  | Epic
  | Legendary
deriving DecidableEq, Repr

/-- The `ListingStatus` enum (lib.rs lines 385-390). -/
inductive ListingStatus where
  | Active
  | Sold
  | Cancelled
  | Expired
deriving DecidableEq, Repr

/-- The program's `ErrorCode` enum (lib.rs lines 630-678). -/
inductive ErrorCode where
  | InvalidCoordinates
  | NameTooLong
  | UriTooLong
  | FeeTooHigh
  | PriceTooLow
  | InvalidExpiryTime
  | ExpiryTooFar
  | AlreadyListed
  | ListingNotActive
  | ListingExpired
  | NotParcelOwner
  | NotListingSeller
  | InvalidSeller
  | InvalidTreasury
  | NotMarketplaceAuthority
  | MathOverflow
deriving DecidableEq, Repr

/-- The `Marketplace` account (lib.rs lines 319-328).  `fee_percentage` is a
`u16` holding basis points, `total_volume` and `total_parcels_minted` are
`u64`, `active_listings` is a `u32`. -/
structure Marketplace where
  authority : Pubkey
  fee_percentage : Nat
  treasury : Pubkey
  total_volume : Nat
  active_listings : Nat
  total_parcels_minted : Nat
  bump : Nat
deriving DecidableEq, Repr

/-- The `LandParcel` account (lib.rs lines 331-343). -/
structure LandParcel where
  mint : Pubkey
  owner : Pubkey
  coordinates : Coordinates
  size : ParcelSize
  rarity : Rarity
  metadata_uri : String
  created_at : Int
  is_listed : Bool
  total_trades : Nat
  last_sale_price : Nat
deriving DecidableEq, Repr

/-- The `Listing` account (lib.rs lines 346-355). -/
structure Listing where
  seller : Pubkey
  parcel_mint : Pubkey
  price : Nat
  created_at : Int
  expires_at : Option Int
  status : ListingStatus
  bump : Nat
deriving DecidableEq, Repr

/-- Handler of the `initialize_marketplace` instruction (lib.rs lines 23-45).
Checks `fee_percentage <= 1000` and creates the singleton with zeroed
counters. -/
def initialize_marketplace (authority treasury : Pubkey) (fee_percentage : Nat)
    (bump : Nat) : Except ErrorCode Marketplace :=
  if fee_percentage ≤ 1000 then
    .ok { authority := authority, fee_percentage := fee_percentage,
          treasury := treasury, total_volume := 0, active_listings := 0,
          total_parcels_minted := 0, bump := bump }
  else .error .FeeTooHigh

/-- Handler of the `update_marketplace_fee` instruction (lib.rs lines 295-311),
together with the Anchor `has_one = authority` constraint of
`UpdateMarketplaceFee` (lib.rs line 569), which is checked before the handler
body runs. -/
def update_marketplace_fee (caller : Pubkey) (new_fee_percentage : Nat)
    (marketplace : Marketplace) : Except ErrorCode Marketplace :=
  if marketplace.authority = caller then
    if new_fee_percentage ≤ 1000 then
      .ok { marketplace with fee_percentage := new_fee_percentage }
    else .error .FeeTooHigh
  else .error .NotMarketplaceAuthority

/-- Transliteration of the `if let Some(expiry) = expires_at { ... }` block of
`list_parcel_for_sale` (lib.rs lines 131-138): returns the error raised by the
expiry validation, or `none` when the expiry is acceptable. -/
def validate_expiry (now : Int) (expires_at : Option Int) : Option ErrorCode :=
  match expires_at with
  | none => none
  | some expiry =>
    if now < expiry then
      if expiry ≤ now + LISTING_DURATION_SECONDS then none
      else some .ExpiryTooFar
    else some .InvalidExpiryTime

/-- Handler of the `list_parcel_for_sale` instruction (lib.rs lines 124-170),
together with the Anchor constraint `land_parcel.owner == owner.key()` of
`ListParcelForSale` (lib.rs line 475).  `seller` and `owner_signer` are two
distinct signer accounts of the instruction; `now` is the clock reading, and
`bump` the listing PDA bump.  On success it returns the updated marketplace,
the updated parcel, and the freshly created listing. -/
def list_parcel_for_sale (seller owner_signer : Pubkey) (price : Nat)
    (expires_at : Option Int) (now : Int) (bump : Nat)
    (marketplace : Marketplace) (land_parcel : LandParcel) :
    Except ErrorCode (Marketplace × LandParcel × Listing) :=
  if land_parcel.owner = owner_signer then
    if MIN_PRICE ≤ price then
      match validate_expiry now expires_at with
      | some e => .error e
      | none =>
        if land_parcel.is_listed then .error .AlreadyListed
        else
          let listing : Listing :=
            { seller := seller, parcel_mint := land_parcel.mint, price := price,
              created_at := now, expires_at := expires_at,
              status := .Active, bump := bump }
          match checkedAdd32 marketplace.active_listings 1 with
          | none => .error .MathOverflow
          | some al =>
            .ok ({ marketplace with active_listings := al },
                 { land_parcel with is_listed := true }, listing)
    else .error .PriceTooLow
  else .error .NotParcelOwner

/-- Transliteration of the expiry check of `purchase_parcel` (lib.rs lines
182-187): `true` when no expiry is set or the clock has not passed it. -/
def expiry_not_passed (now : Int) (expires_at : Option Int) : Bool :=
  match expires_at with
  | none => true
  | some expiry => if now ≤ expiry then true else false

/-- Fee computation of `purchase_parcel` (lib.rs lines 193-201):
`fee_amount = price.checked_mul(fee).checked_div(10000)` and
`seller_amount = price.checked_sub(fee_amount)`, each `ok_or(MathOverflow)`.
Returns `(fee_amount, seller_amount)`. -/
def computeFee (price fee_percentage : Nat) : Except ErrorCode (Nat × Nat) :=
  match checkedMul64 price fee_percentage with
  | none => .error .MathOverflow
  | some prod =>
    match checkedDiv prod 10000 with
    | none => .error .MathOverflow
    | some fee_amount =>
      match checkedSub price fee_amount with
      | none => .error .MathOverflow
      | some seller_amount => .ok (fee_amount, seller_amount)

/-- Result of a successful `purchase_parcel`: the three updated records plus
the amounts transferred to the seller and the treasury. -/
structure PurchaseResult where
  marketplace : Marketplace
  land_parcel : LandParcel
  listing : Listing
  fee_amount : Nat
  seller_amount : Nat
deriving DecidableEq, Repr

/-- Handler of the `purchase_parcel` instruction (lib.rs lines 172-263).  The
two lamport transfers (buyer to seller, buyer to treasury) mutate balances
held by the execution environment, not the three records modelled here; their
amounts are reported in the result.  `now` is the clock reading. -/
def purchase_parcel (buyer : Pubkey) (now : Int) (marketplace : Marketplace)
    (land_parcel : LandParcel) (listing : Listing) :
    Except ErrorCode PurchaseResult :=
  if listing.status = ListingStatus.Active then
    if expiry_not_passed now listing.expires_at then
      match computeFee listing.price marketplace.fee_percentage with
      | .error e => .error e
      | .ok (fee_amount, seller_amount) =>
        match checkedAdd32 land_parcel.total_trades 1 with
        | none => .error .MathOverflow
        | some tt =>
          match checkedSub marketplace.active_listings 1 with
          | none => .error .MathOverflow
          | some al =>
            match checkedAdd64 marketplace.total_volume listing.price with
            | none => .error .MathOverflow
            | some tv =>
              .ok { marketplace :=
                      { marketplace with
                          active_listings := al,
                          total_volume := tv },
                    land_parcel :=
                      { land_parcel with
                          owner := buyer,
                          is_listed := false,
                          total_trades := tt,
                          last_sale_price := listing.price },
                    listing := { listing with status := ListingStatus.Sold },
                    fee_amount := fee_amount,
                    seller_amount := seller_amount }
    else .error .ListingExpired
  else .error .ListingNotActive

/-- Handler of the `cancel_listing` instruction (lib.rs lines 265-293),
together with the Anchor `has_one = seller` constraint of `CancelListing`
(lib.rs line 544), which is checked before the handler body runs. -/
def cancel_listing (caller : Pubkey) (marketplace : Marketplace)
    (land_parcel : LandParcel) (listing : Listing) :
    Except ErrorCode (Marketplace × LandParcel × Listing) :=
  if listing.seller = caller then
    if listing.status = ListingStatus.Active then
      match checkedSub marketplace.active_listings 1 with
      | none => .error .MathOverflow
      | some al =>
        .ok ({ marketplace with active_listings := al },
             { land_parcel with is_listed := false },
             { listing with status := ListingStatus.Cancelled })
    else .error .ListingNotActive
  else .error .NotListingSeller

/-- Errors of a whole transaction: either an `ErrorCode` raised by the program
itself, or a failure supplied by the execution environment — allocating a
record at an address that is already occupied (Anchor `init` on an existing
account), a required account that does not exist, or a failing call to the
external metadata service (spec section 6). -/
inductive OpError where
  | program (e : ErrorCode)
  | accountInUse
  | accountNotFound
  | externalFailure
deriving DecidableEq, Repr

/-- Handler of the `mint_land_parcel` instruction (lib.rs lines 47-122).
`metadata_ok` models the outcome of the `create_metadata_accounts_v3` call to
the external metadata program, which sits between the parcel initialization
and the `total_parcels_minted` update and aborts the mint when it fails.
String lengths are byte lengths, as in Rust `String::len`. -/
def mint_land_parcel (mint owner : Pubkey) (coordinates : Coordinates)
    (size : ParcelSize) (rarity : Rarity) (name uri : String) (now : Int)
    (metadata_ok : Bool) (marketplace : Marketplace) :
    Except OpError (LandParcel × Marketplace) :=
  if MIN_COORDINATE ≤ coordinates.x ∧ coordinates.x ≤ MAX_COORDINATE then
    if MIN_COORDINATE ≤ coordinates.y ∧ coordinates.y ≤ MAX_COORDINATE then
      if name.utf8ByteSize ≤ MAX_NAME_LENGTH then
        if uri.utf8ByteSize ≤ MAX_URI_LENGTH then
          let land_parcel : LandParcel :=
            { mint := mint, owner := owner, coordinates := coordinates,
              size := size, rarity := rarity, metadata_uri := uri,
              created_at := now, is_listed := false, total_trades := 0,
              last_sale_price := 0 }
          if metadata_ok then
            match checkedAdd64 marketplace.total_parcels_minted 1 with
            | none => .error (.program .MathOverflow)
            | some tp =>
              .ok (land_parcel,
                   { marketplace with total_parcels_minted := tp })
          else .error .externalFailure
        else .error (.program .UriTooLong)
      else .error (.program .NameTooLong)
    else .error (.program .InvalidCoordinates)
  else .error (.program .InvalidCoordinates)

/-- Global persistent state: the (at most one) marketplace singleton, the
parcel records keyed by their `mint` field, and the listing records keyed by
the parcel mint — the listing PDA of the source is derived from the seeds
`["listing", land_parcel.mint]` (lib.rs lines 465-468), with no creation
slot, so one address exists per parcel mint. -/
structure ChainState where
  marketplace : Option Marketplace
  parcels : List LandParcel
  listings : List (Pubkey × Listing)
deriving DecidableEq, Repr

/-- Look up the parcel record stored at the address derived from `mint`. -/
def lookupParcel (mint : Pubkey) : List LandParcel → Option LandParcel
  | [] => none
  | p :: rest => if p.mint = mint then some p else lookupParcel mint rest

/-- Overwrite the parcel record stored at the address derived from `mint`. -/
def updateParcel (mint : Pubkey) (p' : LandParcel) :
    List LandParcel → List LandParcel
  | [] => []
  | p :: rest =>
    if p.mint = mint then p' :: rest else p :: updateParcel mint p' rest

/-- Look up the listing record stored at the PDA of parcel mint `mint`. -/
def lookupListing (mint : Pubkey) :
    List (Pubkey × Listing) → Option Listing
  | [] => none
  | (k, l) :: rest => if k = mint then some l else lookupListing mint rest

/-- Overwrite the listing record stored at the PDA of parcel mint `mint`. -/
def updateListing (mint : Pubkey) (l' : Listing) :
    List (Pubkey × Listing) → List (Pubkey × Listing)
  | [] => []
  | (k, l) :: rest =>
    if k = mint then (k, l') :: rest else (k, l) :: updateListing mint l' rest

/-- Contribution of one listing to the count of Active listings. -/
def statusWeight (l : Listing) : Nat :=
  if l.status = ListingStatus.Active then 1 else 0

/-- Number of stored listing records whose status is Active. -/
def countActive : List (Pubkey × Listing) → Nat
  | [] => 0
  | (_, l) :: rest => statusWeight l + countActive rest

/-- One invocation of an exposed instruction, with every signer, argument and
environment input (clock reading, PDA bump, metadata-service outcome) it
depends on. -/
inductive Op where
  | initOp (authority treasury : Pubkey) (fee : Nat) (bump : Nat)
  | mintOp (mint owner : Pubkey) (coordinates : Coordinates)
      (size : ParcelSize) (rarity : Rarity) (name uri : String) (now : Int)
      (metadata_ok : Bool)
  | listOp (seller owner_signer parcel_mint : Pubkey) (price : Nat)
      (expires_at : Option Int) (now : Int) (bump : Nat)
  | purchaseOp (buyer parcel_mint : Pubkey) (now : Int)
  | cancelOp (caller parcel_mint : Pubkey)
  | feeOp (caller : Pubkey) (newFee : Nat)
deriving DecidableEq, Repr

/-- One transaction executing one instruction against the global state.  The
account plumbing follows the source's `#[derive(Accounts)]` structs: accounts
referenced by an instruction must exist (`accountNotFound` otherwise), and an
`init` account must not (`accountInUse` otherwise — the environment refuses to
allocate a record at an occupied address).  An `.error` result means the
environment aborts the transaction and discards every write. -/
def runOp : Op → ChainState → Except OpError ChainState
  | .initOp authority treasury fee bump, s =>
    match s.marketplace with
    | some _ => .error .accountInUse
    | none =>
      match initialize_marketplace authority treasury fee bump with
      | .error e => .error (.program e)
      | .ok m => .ok { s with marketplace := some m }
  | .mintOp mint owner coordinates size rarity name uri now metadata_ok, s =>
    match s.marketplace with
    | none => .error .accountNotFound
    | some m =>
      match lookupParcel mint s.parcels with
      | some _ => .error .accountInUse
      | none =>
        match mint_land_parcel mint owner coordinates size rarity name uri
            now metadata_ok m with
        | .error e => .error e
        | .ok (p, m') =>
          .ok { s with marketplace := some m', parcels := p :: s.parcels }
  | .listOp seller owner_signer parcel_mint price expires_at now bump, s =>
    match s.marketplace with
    | none => .error .accountNotFound
    | some m =>
      match lookupParcel parcel_mint s.parcels with
      | none => .error .accountNotFound
      | some p =>
        match lookupListing parcel_mint s.listings with
        | some _ => .error .accountInUse
        | none =>
          match list_parcel_for_sale seller owner_signer price expires_at
              now bump m p with
          | .error e => .error (.program e)
          | .ok (m', p', lst) =>
            .ok { marketplace := some m',
                  parcels := updateParcel parcel_mint p' s.parcels,
                  listings := (parcel_mint, lst) :: s.listings }
  | .purchaseOp buyer parcel_mint now, s =>
    match s.marketplace with
    | none => .error .accountNotFound
    | some m =>
      match lookupParcel parcel_mint s.parcels with
      | none => .error .accountNotFound
      | some p =>
        match lookupListing parcel_mint s.listings with
        | none => .error .accountNotFound
        | some l =>
          match purchase_parcel buyer now m p l with
          | .error e => .error (.program e)
          | .ok r =>
            .ok { marketplace := some r.marketplace,
                  parcels := updateParcel parcel_mint r.land_parcel s.parcels,
                  listings := updateListing parcel_mint r.listing s.listings }
  | .cancelOp caller parcel_mint, s =>
    match s.marketplace with
    | none => .error .accountNotFound
    | some m =>
      match lookupParcel parcel_mint s.parcels with
      | none => .error .accountNotFound
      | some p =>
        match lookupListing parcel_mint s.listings with
        | none => .error .accountNotFound
        | some l =>
          match cancel_listing caller m p l with
          | .error e => .error (.program e)
          | .ok (m', p', l') =>
            .ok { marketplace := some m',
                  parcels := updateParcel parcel_mint p' s.parcels,
                  listings := updateListing parcel_mint l' s.listings }
  | .feeOp caller newFee, s =>
    match s.marketplace with
    | none => .error .accountNotFound
    | some m =>
      match update_marketplace_fee caller newFee m with
      | .error e => .error (.program e)
      | .ok m' => .ok { s with marketplace := some m' }

/-- Committed state after a transaction: the environment commits the writes
of a successful instruction and discards the writes of a failed one (spec
sections 5 and 6: atomic commit-or-abort supplied by the execution
environment). -/
def commitState (op : Op) (s : ChainState) : ChainState :=
  match runOp op s with
  | .ok s' => s'
  | .error _ => s

/-- States reachable from the empty ledger by successful transactions. -/
inductive Reachable : ChainState → Prop where
  | base : Reachable ⟨none, [], []⟩
  | step {s s' : ChainState} (op : Op) :
      Reachable s → runOp op s = .ok s' → Reachable s'

/-- Bookkeeping invariant claimed by the spec: the marketplace's
`active_listings` counter equals the number of stored listing records with
status Active (and no listing exists before the marketplace does). -/
def listingsInv (s : ChainState) : Prop :=
  (s.marketplace = none → s.listings = []) ∧
  (∀ m, s.marketplace = some m →
    m.active_listings = countActive s.listings)

/-- The empty ledger, before any transaction. -/
def emptyState : ChainState := { marketplace := none, parcels := [], listings := [] }

/-- Sample marketplace with a 250 bps fee and one active listing. -/
def mkt1 : Marketplace :=
  { authority := 1, fee_percentage := 250, treasury := 2, total_volume := 0,
    active_listings := 1, total_parcels_minted := 1, bump := 255 }

/-- Sample parcel, currently listed. -/
def parcel1 : LandParcel :=
  { mint := 5, owner := 3, coordinates := { x := 100, y := 200 },
    size := .Medium, rarity := .Rare, metadata_uri := "", created_at := 0,
    is_listed := true, total_trades := 0, last_sale_price := 0 }

/-- Sample active listing of `parcel1` at price 2000000, no expiry. -/
def listing1 : Listing :=
  { seller := 3, parcel_mint := 5, price := 2000000, created_at := 0,
    expires_at := none, status := .Active, bump := 254 }

/-- Result of buyer 4 purchasing `listing1` against `mkt1` and `parcel1`. -/
def res1 : PurchaseResult :=
  { marketplace := { mkt1 with active_listings := 0, total_volume := 2000000 },
    land_parcel := { parcel1 with
                      owner := 4,
                      is_listed := false,
                      total_trades := 1,
                      last_sale_price := 2000000 },
    listing := { listing1 with status := .Sold },
    fee_amount := 50000, seller_amount := 1950000 }

/-- Variant of `listing1` that expires at time 10. -/
def listing2 : Listing := { listing1 with expires_at := some 10 }

/-- State holding `mkt1`, `parcel1` and the expiring listing `listing2`. -/
def state5 : ChainState :=
  { marketplace := some mkt1, parcels := [parcel1], listings := [(5, listing2)] }

/-- Sample unlisted parcel with mint 7 owned by identity 1. -/
def parcelC3 : LandParcel := { parcel1 with mint := 7, owner := 1, is_listed := false }

/-- Marketplace after one more listing is created against `mkt1`. -/
def mktC3 : Marketplace := { mkt1 with active_listings := 2 }

/-- Parcel `parcelC3` after being listed. -/
def parcelC3l : LandParcel := { parcelC3 with is_listed := true }

/-- Listing created on `parcelC3` by seller signer 2 with owner signer 1. -/
def listingC3 : Listing :=
  { seller := 2, parcel_mint := 7, price := 1000000, created_at := 0,
    expires_at := none, status := .Active, bump := 253 }

/-- Parcel `parcel1` with its listing flag cleared, as after a sale. -/
def parcelClosed : LandParcel := { parcel1 with is_listed := false }

/-- Listing `listing1` after it was sold. -/
def soldListing : Listing := { listing1 with status := .Sold }

/-- State in which the prior listing of parcel mint 5 has closed (status Sold,
parcel no longer flagged as listed) but the listing record still occupies the
PDA of mint 5. -/
def stateClosed : ChainState :=
  { marketplace := some mkt1, parcels := [parcelClosed], listings := [(5, soldListing)] }

/-- State with an unlisted parcel at mint 5 and no listing record at its PDA. -/
def stateFresh : ChainState :=
  { marketplace := some mkt1, parcels := [parcelClosed], listings := [] }

/-- Marketplace produced by `initialize_marketplace 1 2 250 255`. -/
def mktInit : Marketplace :=
  { authority := 1, fee_percentage := 250, treasury := 2, total_volume := 0,
    active_listings := 0, total_parcels_minted := 0, bump := 255 }

/-- State reached from the empty ledger by the initialization transaction. -/
def stateInit : ChainState :=
  { marketplace := some mktInit, parcels := [], listings := [] }

/-- Characterization of a successful `u64` checked multiplication. -/
theorem checkedMul64_eq_some {a b c : Nat} (h : checkedMul64 a b = some c) :
    c = a * b ∧ a * b ≤ u64Max := by
  unfold checkedMul64 at h
  split at h
  · exact ⟨(Option.some.injEq _ _ ▸ h).symm, by assumption⟩
  · exact Option.noConfusion h

/-- Characterization of a successful `u64` checked addition. -/
theorem checkedAdd64_eq_some {a b c : Nat} (h : checkedAdd64 a b = some c) :
    c = a + b ∧ a + b ≤ u64Max := by
  unfold checkedAdd64 at h
  split at h
  · exact ⟨(Option.some.injEq _ _ ▸ h).symm, by assumption⟩
  · exact Option.noConfusion h

/-- Characterization of a successful `u32` checked addition. -/
theorem checkedAdd32_eq_some {a b c : Nat} (h : checkedAdd32 a b = some c) :
    c = a + b ∧ a + b ≤ u32Max := by
  unfold checkedAdd32 at h
  split at h
  · exact ⟨(Option.some.injEq _ _ ▸ h).symm, by assumption⟩
  · exact Option.noConfusion h

/-- Characterization of a successful checked subtraction. -/
theorem checkedSub_eq_some {a b c : Nat} (h : checkedSub a b = some c) :
    b ≤ a ∧ c = a - b := by
  unfold checkedSub at h
  split at h
  · exact ⟨by assumption, (Option.some.injEq _ _ ▸ h).symm⟩
  · exact Option.noConfusion h

/-- Checked division by the nonzero constant 10000 always succeeds. -/
theorem checkedDiv_10000 (a : Nat) : checkedDiv a 10000 = some (a / 10000) := by
  unfold checkedDiv
  simp

/-- Characterization of a successful fee computation: the multiplication did
not overflow, the fee is the floored basis-point share, it does not exceed
the price, and the seller amount is the exact remainder. -/
theorem computeFee_ok_spec {price fee fa sa : Nat}
    (h : computeFee price fee = .ok (fa, sa)) :
    price * fee ≤ u64Max ∧ fa = price * fee / 10000 ∧ fa ≤ price ∧
    sa = price - fa := by
  unfold computeFee at h
  split at h
  · exact Except.noConfusion h
  next prod hmul =>
    obtain ⟨hprod, hle⟩ := checkedMul64_eq_some hmul
    subst hprod
    split at h
    next hdiv => rw [checkedDiv_10000] at hdiv; exact Option.noConfusion hdiv
    next fa0 hdiv =>
      rw [checkedDiv_10000] at hdiv
      injection hdiv with hdiv
      subst hdiv
      split at h
      · exact Except.noConfusion h
      next sa0 hsub =>
        obtain ⟨hfa, hsa⟩ := checkedSub_eq_some hsub
        simp only [Except.ok.injEq, Prod.mk.injEq] at h
        obtain ⟨h1, h2⟩ := h
        subst h1
        subst h2
        exact ⟨hle, rfl, hfa, hsa⟩

/-- Characterization of a successful purchase: the listing was Active and not
past its expiry, the fee split is the floored basis-point share of the price,
and the three records are updated exactly as the handler writes them. -/
theorem purchase_ok_spec {buyer : Pubkey} {now : Int} {m : Marketplace}
    {p : LandParcel} {l : Listing} {r : PurchaseResult}
    (h : purchase_parcel buyer now m p l = .ok r) :
    l.status = ListingStatus.Active ∧
    expiry_not_passed now l.expires_at = true ∧
    l.price * m.fee_percentage ≤ u64Max ∧
    r.fee_amount = l.price * m.fee_percentage / 10000 ∧
    r.fee_amount ≤ l.price ∧
    r.seller_amount = l.price - r.fee_amount ∧
    p.total_trades + 1 ≤ u32Max ∧
    r.land_parcel = { p with
                       owner := buyer,
                       is_listed := false,
                       total_trades := p.total_trades + 1,
                       last_sale_price := l.price } ∧
    r.listing = { l with status := ListingStatus.Sold } ∧
    1 ≤ m.active_listings ∧
    m.total_volume + l.price ≤ u64Max ∧
    r.marketplace = { m with
                       active_listings := m.active_listings - 1,
                       total_volume := m.total_volume + l.price } := by
  unfold purchase_parcel at h
  split at h
  case isFalse => exact Except.noConfusion h
  next hA =>
    split at h
    case isFalse => exact Except.noConfusion h
    next hE =>
      split at h
      · exact Except.noConfusion h
      next fa sa hfee =>
        obtain ⟨hmul, hfa, hfale, hsa⟩ := computeFee_ok_spec hfee
        split at h
        · exact Except.noConfusion h
        next tt htt =>
          obtain ⟨htt1, htt2⟩ := checkedAdd32_eq_some htt
          split at h
          · exact Except.noConfusion h
          next al hal =>
            obtain ⟨hal1, hal2⟩ := checkedSub_eq_some hal
            split at h
            · exact Except.noConfusion h
            next tv htv =>
              obtain ⟨htv1, htv2⟩ := checkedAdd64_eq_some htv
              simp only [Except.ok.injEq] at h
              subst h
              subst htt1
              subst hal2
              subst htv1
              exact ⟨hA, hE, hmul, hfa, hfale, hsa, htt2, rfl, rfl, hal1,
                     htv2, rfl⟩

/-- A purchase attempted after the expiry of a still-Active listing fails
with `ListingExpired`. -/
theorem purchase_expired_err (buyer : Pubkey) (now e : Int) (m : Marketplace)
    (p : LandParcel) (l : Listing) (hA : l.status = ListingStatus.Active)
    (hexp : l.expires_at = some e) (hlt : e < now) :
    purchase_parcel buyer now m p l = .error .ListingExpired := by
  unfold purchase_parcel
  rw [if_pos hA]
  have hnp : expiry_not_passed now l.expires_at = false := by
    rw [hexp]
    show (if now ≤ e then true else false) = false
    rw [if_neg (by omega)]
  rw [hnp]
  simp

/-- A purchase of a listing whose status is not Active fails with
`ListingNotActive`. -/
theorem purchase_not_active_err {buyer : Pubkey} {now : Int}
    {m : Marketplace} {p : LandParcel} {l : Listing}
    (hA : l.status ≠ ListingStatus.Active) :
    purchase_parcel buyer now m p l = .error .ListingNotActive := by
  unfold purchase_parcel
  rw [if_neg hA]

/-- Characterization of a successful listing creation. -/
theorem list_ok_spec {seller owner_signer : Pubkey} {price : Nat}
    {expires_at : Option Int} {now : Int} {bump : Nat} {m m' : Marketplace}
    {p p' : LandParcel} {lst : Listing}
    (h : list_parcel_for_sale seller owner_signer price expires_at now bump m p
      = .ok (m', p', lst)) :
    p.owner = owner_signer ∧ MIN_PRICE ≤ price ∧
    validate_expiry now expires_at = none ∧ p.is_listed = false ∧
    m.active_listings + 1 ≤ u32Max ∧
    m' = { m with active_listings := m.active_listings + 1 } ∧
    p' = { p with is_listed := true } ∧
    lst = { seller := seller, parcel_mint := p.mint, price := price,
            created_at := now, expires_at := expires_at,
            status := .Active, bump := bump } := by
  unfold list_parcel_for_sale at h
  split at h
  case isFalse => exact Except.noConfusion h
  next hown =>
    split at h
    case isFalse => exact Except.noConfusion h
    next hprice =>
      split at h
      next e hexp => exact Except.noConfusion h
      next hexp =>
        split at h
        case isTrue => exact Except.noConfusion h
        next hlisted =>
          split at h
          · exact Except.noConfusion h
          next al hal =>
            obtain ⟨hal1, hal2⟩ := checkedAdd32_eq_some hal
            simp only [Except.ok.injEq, Prod.mk.injEq] at h
            obtain ⟨h1, h2, h3⟩ := h
            subst h1
            subst h2
            subst h3
            subst hal1
            exact ⟨hown, hprice, hexp, by simpa using hlisted, hal2, rfl,
                   rfl, rfl⟩

/-- Characterization of a successful cancellation. -/
theorem cancel_ok_spec {caller : Pubkey} {m m' : Marketplace}
    {p p' : LandParcel} {l l' : Listing}
    (h : cancel_listing caller m p l = .ok (m', p', l')) :
    l.seller = caller ∧ l.status = ListingStatus.Active ∧
    1 ≤ m.active_listings ∧
    m' = { m with active_listings := m.active_listings - 1 } ∧
    p' = { p with is_listed := false } ∧
    l' = { l with status := ListingStatus.Cancelled } := by
  unfold cancel_listing at h
  split at h
  case isFalse => exact Except.noConfusion h
  next hseller =>
    split at h
    case isFalse => exact Except.noConfusion h
    next hA =>
      split at h
      · exact Except.noConfusion h
      next al hal =>
        obtain ⟨hal1, hal2⟩ := checkedSub_eq_some hal
        simp only [Except.ok.injEq, Prod.mk.injEq] at h
        obtain ⟨h1, h2, h3⟩ := h
        subst h1
        subst h2
        subst h3
        subst hal2
        exact ⟨hseller, hA, hal1, rfl, rfl, rfl⟩

/-- Characterization of a successful marketplace initialization. -/
theorem init_ok_spec {a t : Pubkey} {f b : Nat} {m : Marketplace}
    (h : initialize_marketplace a t f b = .ok m) :
    f ≤ 1000 ∧
    m = { authority := a, fee_percentage := f, treasury := t,
          total_volume := 0, active_listings := 0,
          total_parcels_minted := 0, bump := b } := by
  unfold initialize_marketplace at h
  split at h
  next hf =>
    simp only [Except.ok.injEq] at h
    exact ⟨hf, h.symm⟩
  · exact Except.noConfusion h

/-- Characterization of a successful fee update. -/
theorem fee_ok_spec {caller : Pubkey} {f : Nat} {m m' : Marketplace}
    (h : update_marketplace_fee caller f m = .ok m') :
    m.authority = caller ∧ f ≤ 1000 ∧
    m' = { m with fee_percentage := f } := by
  unfold update_marketplace_fee at h
  split at h
  next hauth =>
    split at h
    next hf =>
      simp only [Except.ok.injEq] at h
      exact ⟨hauth, hf, h.symm⟩
    · exact Except.noConfusion h
  · exact Except.noConfusion h

/-- A successful mint does not touch the listing counter and creates the
parcel unlisted. -/
theorem mint_ok_spec {mint owner : Pubkey} {c : Coordinates}
    {sz : ParcelSize} {ra : Rarity} {name uri : String} {now : Int}
    {mok : Bool} {m m' : Marketplace} {p : LandParcel}
    (h : mint_land_parcel mint owner c sz ra name uri now mok m
      = .ok (p, m')) :
    m'.active_listings = m.active_listings ∧ p.is_listed = false ∧
    p.mint = mint := by
  unfold mint_land_parcel at h
  split at h
  case isFalse => exact Except.noConfusion h
  split at h
  case isFalse => exact Except.noConfusion h
  split at h
  case isFalse => exact Except.noConfusion h
  split at h
  case isFalse => exact Except.noConfusion h
  split at h
  case isFalse => exact Except.noConfusion h
  split at h
  · exact Except.noConfusion h
  next tp htp =>
    simp only [Except.ok.injEq, Prod.mk.injEq] at h
    obtain ⟨h1, h2⟩ := h
    subst h1
    subst h2
    exact ⟨rfl, rfl, rfl⟩

/-- Replacing the listing stored at an occupied key shifts the count of
Active listings by the difference of the two status weights. -/
theorem countActive_updateListing {k : Pubkey} {l l' : Listing}
    (ls : List (Pubkey × Listing)) (h : lookupListing k ls = some l) :
    countActive (updateListing k l' ls) + statusWeight l
      = countActive ls + statusWeight l' := by
  induction ls with
  | nil => exact Option.noConfusion h
  | cons hd rest ih =>
    obtain ⟨k0, l0⟩ := hd
    unfold lookupListing at h
    unfold updateListing
    split at h
    next hk =>
      injection h with h
      subst h
      rw [if_pos hk]
      unfold countActive
      omega
    next hk =>
      rw [if_neg hk]
      unfold countActive
      have hrec := ih h
      omega

/-- Every reachable state satisfies the listing-count invariant: the
marketplace's `active_listings` equals the number of Active listing records
(and no listing record exists before the marketplace singleton does). -/
theorem reachable_listingsInv {s : ChainState} (h : Reachable s) :
    listingsInv s := by
  induction h with
  | base => exact ⟨fun _ => rfl, fun m hm => Option.noConfusion hm⟩
  | @step sPre sPost op hr hok ih =>
    obtain ⟨ih1, ih2⟩ := ih
    cases op with
    | initOp a t f b =>
      simp only [runOp] at hok
      split at hok
      · exact Except.noConfusion hok
      next hm =>
        split at hok
        · exact Except.noConfusion hok
        next m hinit =>
          obtain ⟨hf, hmval⟩ := init_ok_spec hinit
          subst hmval
          simp only [Except.ok.injEq] at hok
          subst hok
          refine ⟨fun hn => by simp at hn, fun m0 hm0 => ?_⟩
          simp only [Option.some.injEq] at hm0
          subst hm0
          show 0 = countActive sPre.listings
          rw [ih1 hm]
          rfl
    | mintOp mint owner c sz ra name uri now mok =>
      simp only [runOp] at hok
      split at hok
      · exact Except.noConfusion hok
      next m hm =>
        split at hok
        · exact Except.noConfusion hok
        next hpar =>
          split at hok
          · exact Except.noConfusion hok
          next p m' hmint =>
            obtain ⟨hact, _, _⟩ := mint_ok_spec hmint
            simp only [Except.ok.injEq] at hok
            subst hok
            refine ⟨fun hn => by simp at hn, fun m0 hm0 => ?_⟩
            simp only [Option.some.injEq] at hm0
            subst hm0
            rw [hact]
            exact ih2 m hm
    | listOp seller owner_signer parcel_mint price expires_at now bump =>
      simp only [runOp] at hok
      split at hok
      · exact Except.noConfusion hok
      next m hm =>
        split at hok
        · exact Except.noConfusion hok
        next p hp =>
          split at hok
          · exact Except.noConfusion hok
          next hnol =>
            split at hok
            · exact Except.noConfusion hok
            next m' p' lst hlist =>
              obtain ⟨_, _, _, _, _, hm', _, hlst⟩ := list_ok_spec hlist
              simp only [Except.ok.injEq] at hok
              subst hok
              refine ⟨fun hn => by simp at hn, fun m0 hm0 => ?_⟩
              simp only [Option.some.injEq] at hm0
              subst hm0
              subst hm'
              have hw : statusWeight lst = 1 := by
                rw [hlst]
                simp [statusWeight]
              show m.active_listings + 1
                = countActive ((parcel_mint, lst) :: sPre.listings)
              unfold countActive
              rw [hw, ← ih2 m hm]
              omega
    | purchaseOp buyer parcel_mint now =>
      simp only [runOp] at hok
      split at hok
      · exact Except.noConfusion hok
      next m hm =>
        split at hok
        · exact Except.noConfusion hok
        next p hp =>
          split at hok
          · exact Except.noConfusion hok
          next l hl =>
            split at hok
            · exact Except.noConfusion hok
            next r hpur =>
              obtain ⟨hA, _, _, _, _, _, _, _, hrl, hge, _, hrm⟩ :=
                purchase_ok_spec hpur
              simp only [Except.ok.injEq] at hok
              subst hok
              refine ⟨fun hn => by simp at hn, fun m0 hm0 => ?_⟩
              simp only [Option.some.injEq] at hm0
              subst hm0
              have hcnt :=
                @countActive_updateListing parcel_mint l r.listing
                  sPre.listings hl
              have hw1 : statusWeight l = 1 := by simp [statusWeight, hA]
              have hw0 : statusWeight r.listing = 0 := by
                rw [hrl]
                simp [statusWeight]
              have hract : r.marketplace.active_listings
                  = m.active_listings - 1 := by rw [hrm]
              have hih := ih2 m hm
              show r.marketplace.active_listings
                = countActive (updateListing parcel_mint r.listing sPre.listings)
              rw [hract]
              omega
    | cancelOp caller parcel_mint =>
      simp only [runOp] at hok
      split at hok
      · exact Except.noConfusion hok
      next m hm =>
        split at hok
        · exact Except.noConfusion hok
        next p hp =>
          split at hok
          · exact Except.noConfusion hok
          next l hl =>
            split at hok
            · exact Except.noConfusion hok
            next m' p' l' hcan =>
              obtain ⟨_, hA, hge, hm', _, hl'⟩ := cancel_ok_spec hcan
              simp only [Except.ok.injEq] at hok
              subst hok
              refine ⟨fun hn => by simp at hn, fun m0 hm0 => ?_⟩
              simp only [Option.some.injEq] at hm0
              subst hm0
              have hcnt :=
                @countActive_updateListing parcel_mint l l'
                  sPre.listings hl
              have hw1 : statusWeight l = 1 := by simp [statusWeight, hA]
              have hw0 : statusWeight l' = 0 := by
                rw [hl']
                simp [statusWeight]
              have hmact : m'.active_listings = m.active_listings - 1 := by
                rw [hm']
              have hih := ih2 m hm
              show m'.active_listings
                = countActive (updateListing parcel_mint l' sPre.listings)
              rw [hmact]
              omega
    | feeOp caller newFee =>
      simp only [runOp] at hok
      split at hok
      · exact Except.noConfusion hok
      next m hm =>
        split at hok
        · exact Except.noConfusion hok
        next m' hupd =>
          obtain ⟨_, _, hm'⟩ := fee_ok_spec hupd
          simp only [Except.ok.injEq] at hok
          subst hok
          refine ⟨fun hn => by simp at hn, fun m0 hm0 => ?_⟩
          simp only [Option.some.injEq] at hm0
          subst hm0
          subst hm'
          exact ih2 m hm

/-- With a fee rate of at most 10000 basis points, the fee computation
succeeds whenever the initial multiplication does not overflow, producing
the floored share and the exact remainder. -/
theorem computeFee_ok_of_le {price fee : Nat} (hfee : fee ≤ 10000)
    (hmul : price * fee ≤ u64Max) :
    computeFee price fee
      = .ok (price * fee / 10000, price - price * fee / 10000) := by
  have hdivle : price * fee / 10000 ≤ price := by
    have h1 : price * fee ≤ price * 10000 :=
      Nat.mul_le_mul (Nat.le_refl price) hfee
    have h2 : price * fee / 10000 ≤ price * 10000 / 10000 :=
      Nat.div_le_div_right h1
    have h3 : price * 10000 / 10000 = price :=
      Nat.mul_div_cancel price (by omega)
    omega
  have hchecked : checkedMul64 price fee = some (price * fee) := by
    unfold checkedMul64
    rw [if_pos hmul]
  have hsub : checkedSub price (price * fee / 10000)
      = some (price - price * fee / 10000) := by
    unfold checkedSub
    rw [if_pos hdivle]
  simp only [computeFee, hchecked, checkedDiv_10000, hsub]

/-- C1: a purchase of an Active, non-expired listing that completes without
error sets the parcel's owner to the buyer, clears `is_listed`, increments
`total_trades` by one, records the price as `last_sale_price`, marks the
listing Sold, decrements `active_listings` by one and adds the price to
`total_volume`. -/
theorem purchase_updates_all_records (buyer : Pubkey) (now : Int)
    (m : Marketplace) (p : LandParcel) (l : Listing) (r : PurchaseResult)
    (hA : l.status = ListingStatus.Active)
    (hE : expiry_not_passed now l.expires_at = true)
    (h : purchase_parcel buyer now m p l = .ok r) :
    r.land_parcel.owner = buyer ∧
    r.land_parcel.is_listed = false ∧
    r.land_parcel.total_trades = p.total_trades + 1 ∧
    r.land_parcel.last_sale_price = l.price ∧
    r.listing.status = ListingStatus.Sold ∧
    r.marketplace.active_listings + 1 = m.active_listings ∧
    r.marketplace.total_volume = m.total_volume + l.price := by
  obtain ⟨_, _, _, _, _, _, _, hlp, hls, hge, _, hmk⟩ := purchase_ok_spec h
  refine ⟨?_, ?_, ?_, ?_, ?_, ?_, ?_⟩
  · rw [hlp]
  · rw [hlp]
  · rw [hlp]
  · rw [hlp]
  · rw [hls]
  · have : r.marketplace.active_listings = m.active_listings - 1 := by
      rw [hmk]
    omega
  · rw [hmk]

/-- Witness for C1: buyer 4 purchases `listing1` on `parcel1` against `mkt1`,
yielding exactly `res1`. -/
theorem purchase_updates_all_records_inst :
    res1.land_parcel.owner = 4 ∧
    res1.land_parcel.is_listed = false ∧
    res1.land_parcel.total_trades = parcel1.total_trades + 1 ∧
    res1.land_parcel.last_sale_price = listing1.price ∧
    res1.listing.status = ListingStatus.Sold ∧
    res1.marketplace.active_listings + 1 = mkt1.active_listings ∧
    res1.marketplace.total_volume = mkt1.total_volume + listing1.price :=
  purchase_updates_all_records 4 0 mkt1 parcel1 listing1 res1 rfl rfl rfl

/-- C2: for every completed purchase with a fee rate of at most 1000 basis
points, the fee is the floored basis-point share of the price, the seller
amount is the remainder, and the two add back up to the price. -/
theorem purchase_fee_split_roundtrip (buyer : Pubkey) (now : Int)
    (m : Marketplace) (p : LandParcel) (l : Listing) (r : PurchaseResult)
    (hfee : m.fee_percentage ≤ 1000)
    (h : purchase_parcel buyer now m p l = .ok r) :
    r.fee_amount = l.price * m.fee_percentage / 10000 ∧
    r.seller_amount = l.price - r.fee_amount ∧
    r.seller_amount + r.fee_amount = l.price := by
  obtain ⟨_, _, _, hfa, hfale, hsa, _⟩ := purchase_ok_spec h
  refine ⟨hfa, hsa, ?_⟩
  omega

/-- Witness for C2: the concrete purchase of `listing1` splits 2000000 into
1950000 for the seller and 50000 in fees at 250 basis points. -/
theorem purchase_fee_split_roundtrip_inst :
    res1.fee_amount = listing1.price * mkt1.fee_percentage / 10000 ∧
    res1.seller_amount = listing1.price - res1.fee_amount ∧
    res1.seller_amount + res1.fee_amount = listing1.price :=
  purchase_fee_split_roundtrip 4 0 mkt1 parcel1 listing1 res1 (by decide) rfl

/-- C3 counterexample: the owner signer (identity 1, the parcel's owner) and
the seller signer (identity 2) are distinct accounts; the listing is created
successfully, yet its recorded seller is 2 while the parcel's recorded owner
is 1. -/
theorem listing_seller_not_owner_cex :
    list_parcel_for_sale 2 1 1000000 none 0 253 mkt1 parcelC3
      = .ok (mktC3, parcelC3l, listingC3) ∧
    listingC3.seller ≠ parcelC3.owner :=
  ⟨rfl, by decide⟩

/-- C3 (amended): the listing's recorded seller equals the seller signer of
the call, and the owner signer must equal the parcel's recorded owner; the
recorded seller therefore equals the parcel's owner exactly when the two
signers coincide — the program does not require that. -/
theorem listing_seller_is_seller_signer (seller owner_signer : Pubkey)
    (price : Nat) (expires_at : Option Int) (now : Int) (bump : Nat)
    (m m' : Marketplace) (p p' : LandParcel) (lst : Listing)
    (h : list_parcel_for_sale seller owner_signer price expires_at now bump m p
      = .ok (m', p', lst)) :
    lst.seller = seller ∧ p.owner = owner_signer ∧
    (seller = owner_signer → lst.seller = p.owner) := by
  obtain ⟨hown, _, _, _, _, _, _, hlst⟩ := list_ok_spec h
  refine ⟨by rw [hlst], hown, fun hv => ?_⟩
  rw [hlst, hown]
  exact hv

/-- Witness for the amended C3 at the concrete listing of `parcelC3`. -/
theorem listing_seller_is_seller_signer_inst :
    listingC3.seller = 2 ∧ parcelC3.owner = 1 ∧
    (2 = 1 → listingC3.seller = parcelC3.owner) :=
  listing_seller_is_seller_signer 2 1 1000000 none 0 253 mkt1 mktC3
    parcelC3 parcelC3l listingC3 rfl

/-- C4 counterexample: in `stateClosed` the prior listing of parcel mint 5 is
Sold and the parcel is no longer flagged as listed, the caller is the owner
and price and expiry are valid, yet relisting fails: the listing PDA (seeded
by the parcel mint only, with no creation slot) is still occupied, so the
`init` allocation is refused. -/
theorem relist_after_close_fails_cex :
    soldListing.status = ListingStatus.Sold ∧
    parcelClosed.is_listed = false ∧
    parcelClosed.owner = 3 ∧
    runOp (Op.listOp 3 3 5 2000000 none 0 200) stateClosed
      = .error OpError.accountInUse :=
  ⟨rfl, rfl, rfl, rfl⟩

/-- C4 (amended): a parcel can be listed exactly while no listing record
occupies the PDA of its mint; when that address is free and price and expiry
are valid, the owner's `listParcelForSale` succeeds and creates a new Active
listing. -/
theorem list_with_free_pda_succeeds (seller ow parcel_mint : Pubkey)
    (price : Nat) (expires_at : Option Int) (now : Int) (bump : Nat)
    (s : ChainState) (m : Marketplace) (p : LandParcel)
    (hm : s.marketplace = some m)
    (hp : lookupParcel parcel_mint s.parcels = some p)
    (hnol : lookupListing parcel_mint s.listings = none)
    (how : p.owner = ow) (hlisted : p.is_listed = false)
    (hprice : MIN_PRICE ≤ price)
    (hexp : validate_expiry now expires_at = none)
    (hal : m.active_listings + 1 ≤ u32Max) :
    runOp (Op.listOp seller ow parcel_mint price expires_at now bump) s
      = .ok { marketplace :=
                some { m with active_listings := m.active_listings + 1 },
              parcels := updateParcel parcel_mint
                { p with is_listed := true } s.parcels,
              listings := (parcel_mint,
                { seller := seller, parcel_mint := p.mint, price := price,
                  created_at := now, expires_at := expires_at,
                  status := .Active, bump := bump }) :: s.listings } := by
  have h32 : checkedAdd32 m.active_listings 1
      = some (m.active_listings + 1) := by
    unfold checkedAdd32
    rw [if_pos hal]
  have hlistok : list_parcel_for_sale seller ow price expires_at now bump m p
      = .ok ({ m with active_listings := m.active_listings + 1 },
             { p with is_listed := true },
             { seller := seller, parcel_mint := p.mint, price := price,
               created_at := now, expires_at := expires_at,
               status := .Active, bump := bump }) := by
    simp only [list_parcel_for_sale, how, hexp, hlisted, h32, if_pos hprice]
    simp
  simp only [runOp, hm, hp, hnol, hlistok]

/-- Witness for the amended C4: in `stateFresh` (no listing record at the
PDA of mint 5) the owner relists the parcel and a new Active listing is
created. -/
theorem list_with_free_pda_succeeds_inst :
    runOp (Op.listOp 3 3 5 2000000 none 0 200) stateFresh
      = .ok { marketplace :=
                some { mkt1 with active_listings := mkt1.active_listings + 1 },
              parcels := updateParcel 5
                { parcelClosed with is_listed := true } stateFresh.parcels,
              listings := (5,
                { seller := 3, parcel_mint := parcelClosed.mint,
                  price := 2000000, created_at := 0, expires_at := none,
                  status := .Active, bump := 200 }) :: stateFresh.listings } :=
  list_with_free_pda_succeeds 3 3 5 2000000 none 0 200 stateFresh mkt1
    parcelClosed rfl rfl rfl rfl rfl (by decide) rfl (by decide)

/-- C5: a purchase of a still-Active listing attempted after its expiry
fails with `ListingExpired`, and the committed state is unchanged. -/
theorem purchase_after_expiry_fails (buyer parcel_mint : Pubkey)
    (now e : Int) (s : ChainState) (m : Marketplace) (p : LandParcel)
    (l : Listing) (hm : s.marketplace = some m)
    (hp : lookupParcel parcel_mint s.parcels = some p)
    (hl : lookupListing parcel_mint s.listings = some l)
    (hA : l.status = ListingStatus.Active) (hexp : l.expires_at = some e)
    (hlt : e < now) :
    runOp (Op.purchaseOp buyer parcel_mint now) s
      = .error (.program .ListingExpired) ∧
    commitState (Op.purchaseOp buyer parcel_mint now) s = s := by
  have herr := purchase_expired_err buyer now e m p l hA hexp hlt
  have hrun : runOp (Op.purchaseOp buyer parcel_mint now) s
      = .error (.program .ListingExpired) := by
    simp only [runOp, hm, hp, hl, herr]
  exact ⟨hrun, by simp only [commitState, hrun]⟩

/-- Witness for C5: purchasing at time 11 against `listing2`, which expired
at time 10 and still reads Active, fails with `ListingExpired`. -/
theorem purchase_after_expiry_fails_inst :
    runOp (Op.purchaseOp 4 5 11) state5 = .error (.program .ListingExpired) ∧
    commitState (Op.purchaseOp 4 5 11) state5 = state5 :=
  purchase_after_expiry_fails 4 5 11 10 state5 mkt1 parcel1 listing2
    rfl rfl rfl rfl rfl (by decide)

/-- C6: when a purchase of a listing succeeds, the listing comes out Sold,
and a second purchase of that same listing fails with `ListingNotActive`. -/
theorem purchase_twice_second_fails (b1 b2 : Pubkey) (n1 n2 : Int)
    (m : Marketplace) (p : LandParcel) (l : Listing) (r : PurchaseResult)
    (h : purchase_parcel b1 n1 m p l = .ok r) :
    r.listing.status = ListingStatus.Sold ∧
    purchase_parcel b2 n2 r.marketplace r.land_parcel r.listing
      = .error .ListingNotActive := by
  obtain ⟨_, _, _, _, _, _, _, _, hls, _⟩ := purchase_ok_spec h
  have hstat : r.listing.status = ListingStatus.Sold := by rw [hls]
  refine ⟨hstat, purchase_not_active_err ?_⟩
  rw [hstat]
  decide

/-- Witness for C6: after buyer 4's successful purchase (`res1`), buyer 6's
attempt on the same listing fails with `ListingNotActive`. -/
theorem purchase_twice_second_fails_inst :
    res1.listing.status = ListingStatus.Sold ∧
    purchase_parcel 6 0 res1.marketplace res1.land_parcel res1.listing
      = .error .ListingNotActive :=
  purchase_twice_second_fails 4 6 0 0 mkt1 parcel1 listing1 res1 rfl

/-- C7: in every state reachable from the empty ledger by the exposed
operations, the marketplace's `active_listings` counter equals the number of
listing records whose status is Active. -/
theorem active_listings_eq_countActive (s : ChainState) (h : Reachable s)
    (m : Marketplace) (hm : s.marketplace = some m) :
    m.active_listings = countActive s.listings :=
  (reachable_listingsInv h).2 m hm

/-- Witness for C7 at the state reached by the initialization transaction. -/
theorem active_listings_eq_countActive_inst :
    mktInit.active_listings = countActive stateInit.listings :=
  active_listings_eq_countActive stateInit
    (Reachable.step (Op.initOp 1 2 250 255) Reachable.base rfl) mktInit rfl

/-- C8: an operation that returns an error commits no writes: the committed
state equals the state before the operation. -/
theorem failed_op_no_state_change (op : Op) (s : ChainState) (e : OpError)
    (h : runOp op s = .error e) : commitState op s = s := by
  simp only [commitState, h]

/-- Witness for C8: a fee update against a nonexistent marketplace fails and
leaves the empty ledger unchanged. -/
theorem failed_op_no_state_change_inst :
    runOp (Op.feeOp 9 5) emptyState = .error OpError.accountNotFound ∧
    commitState (Op.feeOp 9 5) emptyState = emptyState :=
  ⟨rfl, failed_op_no_state_change (Op.feeOp 9 5) emptyState
    OpError.accountNotFound rfl⟩

/-- C9: both `initialize_marketplace` and `update_marketplace_fee` (by the
stored authority) accept a fee of 1000 basis points and reject any strictly
larger fee with `FeeTooHigh`. -/
theorem fee_boundary_accept_reject (a t : Pubkey) (b : Nat) (m : Marketplace)
    (caller : Pubkey) (f : Nat) (hc : m.authority = caller) (hf : 1000 < f) :
    initialize_marketplace a t 1000 b
      = .ok { authority := a, fee_percentage := 1000, treasury := t,
              total_volume := 0, active_listings := 0,
              total_parcels_minted := 0, bump := b } ∧
    initialize_marketplace a t f b = .error .FeeTooHigh ∧
    update_marketplace_fee caller 1000 m
      = .ok { m with fee_percentage := 1000 } ∧
    update_marketplace_fee caller f m = .error .FeeTooHigh := by
  refine ⟨?_, ?_, ?_, ?_⟩
  · unfold initialize_marketplace
    rw [if_pos (by omega)]
  · unfold initialize_marketplace
    rw [if_neg (by omega)]
  · unfold update_marketplace_fee
    rw [if_pos hc, if_pos (by omega)]
  · unfold update_marketplace_fee
    rw [if_pos hc, if_neg (by omega)]

/-- Witness for C9 with fee 1001 against `mkt1` and its authority 1. -/
theorem fee_boundary_accept_reject_inst :
    initialize_marketplace 1 2 1000 255
      = .ok { authority := 1, fee_percentage := 1000, treasury := 2,
              total_volume := 0, active_listings := 0,
              total_parcels_minted := 0, bump := 255 } ∧
    initialize_marketplace 1 2 1001 255 = .error .FeeTooHigh ∧
    update_marketplace_fee 1 1000 mkt1
      = .ok { mkt1 with fee_percentage := 1000 } ∧
    update_marketplace_fee 1 1001 mkt1 = .error .FeeTooHigh :=
  fee_boundary_accept_reject 1 2 255 mkt1 1 1001 rfl (by decide)

/-- C10: with a fee rate of at most 10000 basis points the fee never exceeds
the price, so the checked subtraction and the division by the constant 10000
cannot fail; the fee computation fails exactly when `price * fee` overflows
`u64`. -/
theorem fee_computation_only_mul_overflows (price fee fa sa : Nat)
    (hfee : fee ≤ 10000) :
    (computeFee price fee = .error .MathOverflow ↔ u64Max < price * fee) ∧
    (computeFee price fee = .ok (fa, sa) →
      fa = price * fee / 10000 ∧ fa ≤ price ∧ sa = price - fa) := by
  constructor
  · constructor
    · intro h
      by_contra hnot
      push_neg at hnot
      rw [computeFee_ok_of_le hfee hnot] at h
      exact Except.noConfusion h
    · intro h
      unfold computeFee checkedMul64
      rw [if_neg (by omega)]
  · intro h
    obtain ⟨_, h1, h2, h3⟩ := computeFee_ok_spec h
    exact ⟨h1, h2, h3⟩

/-- Witness for C10 at the concrete fee computation of the sample purchase. -/
theorem fee_computation_only_mul_overflows_inst :
    (computeFee 2000000 250 = .error .MathOverflow
      ↔ u64Max < 2000000 * 250) ∧
    (computeFee 2000000 250 = .ok (50000, 1950000) →
      50000 = 2000000 * 250 / 10000 ∧ 50000 ≤ 2000000 ∧
      1950000 = 2000000 - 50000) :=
  fee_computation_only_mul_overflows 2000000 250 50000 1950000 (by decide)

end Moqayada
